import Mathlib

/-!
Shallow embedding of the Orb Cascade game core (`src/main.js`): the portal
and miss phases of the orb physics step, the warp-teleport phase, the speed
clamp, the seeded board generator and the session scoring state machine.

Modelling conventions:
* JavaScript numbers are modelled as exact rationals (`ℚ`).
* Each call to `Math.random()` is modelled by an explicit parameter `r`.
* The xorshift RNG state is a natural number with explicit `% 2^32`
  truncation where the source truncates with `>>> 0`.
* `Math.hypot`, `Math.atan2`, `Math.cos` and `Math.sin` are transcendental;
  where a definition needs their value it takes it as an explicit argument,
  and the theorems carry the defining (in)equalities as hypotheses.
-/

namespace OrbCascade

/-- Virtual arena width (`VIRTUAL_W` in the source). -/
def VIRTUAL_W : ℚ := 720

/-- Virtual arena height (`VIRTUAL_H` in the source). -/
def VIRTUAL_H : ℚ := 1280

/-- `clamp(v, a, b) = Math.max(a, Math.min(b, v))` from the source utilities. -/
def clamp (v a b : ℚ) : ℚ := max a (min b v)

/-- `Math.round`: rounds half toward positive infinity, as JavaScript does. -/
def jsRound (q : ℚ) : ℤ := ⌊q + 1/2⌋

/-- Portal kinds, `['blue','purple','gold']` in the source. -/
inductive PortalKind
  | blue
  | purple
  | gold
deriving DecidableEq, Repr

/-- The `kinds` array used when generating portals. -/
def kinds : List PortalKind := [PortalKind.blue, PortalKind.purple, PortalKind.gold]

/-- A terminal scoring slot.  `kind` is `none` when the generator indexed the
`kinds` array out of bounds (JavaScript would store `undefined`). -/
structure Portal where
  x : ℚ
  y : ℚ
  w : ℚ
  h : ℚ
  kind : Option PortalKind
deriving DecidableEq, Repr

/-- `Portal.contains(px,py)`: inclusive rectangle test. -/
def Portal.containsAt (p : Portal) (px py : ℚ) : Bool :=
  decide (p.x ≤ px) && decide (px ≤ p.x + p.w) && decide (p.y ≤ py) && decide (py ≤ p.y + p.h)

/-- A reflecting segment with restitution; generation always passes the
default restitution `0.95`. -/
structure Panel where
  x1 : ℚ
  y1 : ℚ
  x2 : ℚ
  y2 : ℚ
  restitution : ℚ
deriving DecidableEq, Repr

/-- Zone kinds, the `'accel'` / `'drag'` string tags of the source. -/
inductive ZoneType
  | accel
  | drag
deriving DecidableEq, Repr

/-- An axis-aligned velocity-modifying rectangle. -/
structure Zone where
  x : ℚ
  y : ℚ
  w : ℚ
  h : ℚ
  type : ZoneType
deriving DecidableEq, Repr

/-- A teleport circle.  The source stores an object reference to the partner
warp; the data the physics step reads from the partner is its centre, so the
partner link is flattened to the partner's centre coordinates (`none` models
the `null` partner of an unpaired warp). -/
structure Warp where
  x : ℚ
  y : ℚ
  r : ℚ
  id : ℕ
  partner : Option (ℚ × ℚ)
deriving DecidableEq, Repr

/-- `Warp.contains(px,py)`: inclusive squared-distance circle test. -/
def Warp.containsAt (w : Warp) (px py : ℚ) : Bool :=
  decide ((px - w.x) * (px - w.x) + (py - w.y) * (py - w.y) ≤ w.r * w.r)

/-- A scoring segment with identity. -/
structure Gate where
  x1 : ℚ
  y1 : ℚ
  x2 : ℚ
  y2 : ℚ
  id : ℕ
deriving DecidableEq, Repr

/-- The mutable state of the one in-flight orb. -/
structure OrbState where
  posx : ℚ
  posy : ℚ
  velx : ℚ
  vely : ℚ
  radius : ℚ
  gatePassed : List ℕ
  warpCooldown : ℚ
  alive : Bool
deriving DecidableEq, Repr

/-- Events emitted by the orb update toward the session layer. -/
inductive BoardEv
  | gatePassed (g : ℕ)
  | portalEntered (p : Portal)
  | missEv
deriving DecidableEq, Repr

/-- The speed clamp step of `Orb.update` (source lines 81–89), applied right
after gravity and before position integration.  `speed` stands for the float
`Math.hypot(vel.x, vel.y)` computed once before both branches; theorems about
this definition carry the hypothesis `speed^2 = v.1^2 + v.2^2`. -/
def clampSpeed (v_min v_max speed : ℚ) (v : ℚ × ℚ) : ℚ × ℚ :=
  let v1 := if v_max < speed then (v.1 * (v_max / speed), v.2 * (v_max / speed)) else v
  if speed < v_min then
    let s := v_min / (speed + 1/1000000)
    (v1.1 * s, v1.2 * s)
  else v1

/-- The portal loop of `Orb.update` (source lines 153–159): every portal
containing the orb's position kills the orb and emits a portal-entered event;
the loop does not break. -/
def portalsLoop : OrbState → List Portal → List BoardEv → OrbState × List BoardEv
  | o, [], evs => (o, evs)
  | o, p :: ps, evs =>
    if p.containsAt o.posx o.posy then
      portalsLoop { o with alive := false } ps (evs ++ [BoardEv.portalEntered p])
    else
      portalsLoop o ps evs

/-- The out-of-bounds check of `Orb.update` (source lines 161–165).  Note the
source tests only the position, not the `alive` flag. -/
def missPhase (o : OrbState) (evs : List BoardEv) : OrbState × List BoardEv :=
  if VIRTUAL_H + 100 < o.posy - o.radius then
    ({ o with alive := false }, evs ++ [BoardEv.missEv])
  else (o, evs)

/-- The final two phases of one `Orb.update` tick: the portal loop followed by
the out-of-bounds miss check. -/
def portalMissPhase (portals : List Portal) (o : OrbState) : OrbState × List BoardEv :=
  let a := portalsLoop o portals []
  missPhase a.1 a.2

/-- The warp loop of `Orb.update` (source lines 132–141).  `C` is the
configured cooldown constant.  A warp containing the position while the
cooldown is non-positive teleports the orb to the partner's centre, resets the
cooldown to `C` and breaks out of the loop; a partnerless warp is skipped.
Returns the position, the cooldown and whether a teleport fired. -/
def warpLoop (C px py cd : ℚ) : List Warp → (ℚ × ℚ) × ℚ × Bool
  | [] => ((px, py), cd, false)
  | w :: ws =>
    if w.containsAt px py ∧ cd ≤ 0 then
      match w.partner with
      | some c => (c, C, true)
      | none => warpLoop C px py cd ws
    else warpLoop C px py cd ws

/-- The full warp phase of one tick (source lines 130–141): decrement the
cooldown by `dt` when it is positive, then run the warp loop. -/
def warpPhase (C : ℚ) (warps : List Warp) (dt px py cd : ℚ) : (ℚ × ℚ) × ℚ × Bool :=
  let cd1 := if 0 < cd then cd - dt else cd
  warpLoop C px py cd1 warps

/-- A run of consecutive warp phases.  Each list element `(dt, px, py)` gives
the tick's time step and the orb position at the warp phase's entry (the
position produced by the earlier integration phases of that tick, quantified
over adversarially since the claim holds for any of them); the cooldown is
threaded through.  Returns, per tick, whether a teleport fired. -/
def warpFires (C : ℚ) (warps : List Warp) : ℚ → List (ℚ × ℚ × ℚ) → List Bool
  | _, [] => []
  | cd, i :: rest =>
    let out := warpPhase C warps i.1 i.2.1 i.2.2 cd
    out.2.2 :: warpFires C warps out.2.1 rest

/-- One step of the `xorshift32`-like generator in `rand` (source lines
15–24); `>>> 0` is `% 2^32`. -/
def xs32 (x : ℕ) : ℕ :=
  let x1 := (x ^^^ (x <<< 13)) % 4294967296
  let x2 := x1 ^^^ (x1 >>> 17)
  (x2 ^^^ (x2 <<< 5)) % 4294967296

/-- One call of the closure returned by `rand`: advance the state, then
return `state / 0xFFFFFFFF` as a rational. -/
def nextRand (x : ℕ) : ℕ × ℚ :=
  let x1 := xs32 x
  (x1, (x1 : ℚ) / 4294967295)

/-- One board preset from the configuration: raw panel segments, zones,
warp pair definitions `(x1, y1, r, x2, y2)`, gate segments and portal count
(`0` encodes an absent `portals` field; the source's `preset.portals || 3`
maps both to the default `3`). -/
structure PresetDef where
  panels : List (ℚ × ℚ × ℚ × ℚ)
  zones : List (ℚ × ℚ × ℚ × ℚ × ZoneType)
  warps : List (ℚ × ℚ × ℚ × ℚ × ℚ)
  gates : List (ℚ × ℚ × ℚ × ℚ)
  portals : ℕ
deriving Repr

/-- `CONFIG.board`. -/
structure BoardCfg where
  presets : List PresetDef
deriving Repr

/-- `CONFIG.physics`. -/
structure PhysicsCfg where
  gravity : ℚ
  v_min : ℚ
  v_max : ℚ
  accelPerFrame : ℚ
  dragPerFrame : ℚ
deriving Repr

/-- `CONFIG.warp`. -/
structure WarpCfg where
  cooldown : ℚ
deriving Repr

/-- `CONFIG.fire`. -/
structure FireCfg where
  min : ℚ
  max : ℚ
deriving Repr

/-- `CONFIG.scores.energy`. -/
structure EnergyCfg where
  gold : ℚ
  default : ℚ
  onMiss : ℚ
  gate : ℚ
deriving Repr

/-- `CONFIG.scores`. -/
structure ScoresCfg where
  portals : PortalKind → ℚ
  gate : ℚ
  energy : EnergyCfg

/-- `CONFIG.bonus`. -/
structure BonusCfg where
  baseProb : ℚ
  cap : ℚ
deriving Repr

/-- `CONFIG.flow`. -/
structure FlowCfg where
  baseDuration : ℚ
  scoreMultiplier : ℚ
  energyMultiplier : ℚ
  extendProb : ℚ
  extendSeconds : ℚ
  extendCap : ℚ
deriving Repr

/-- The loaded `config.json` structure, restricted to the fields the core
reads. -/
structure Config where
  orbRadius : ℚ
  physics : PhysicsCfg
  warp : WarpCfg
  fire : FireCfg
  shotsPerGame : ℤ
  scores : ScoresCfg
  bonus : BonusCfg
  flow : FlowCfg
  board : BoardCfg

/-- The generated board.  `pidx` records which preset the generator chose
(observable in the source through which preset's obstacle lists were used). -/
structure Board where
  pidx : ℕ
  panels : List Panel
  zones : List Zone
  warps : List Warp
  gates : List Gate
  portals : List Portal
deriving DecidableEq, Repr

/-- One `jitter(v)` call of `Board.generate`: draw a random, offset the
coordinate by `(r - 0.5) * 60`. -/
def jitter1 (x : ℕ) (v : ℚ) : ℕ × ℚ :=
  let a := nextRand x
  (a.1, v + (a.2 - 1/2) * 60)

/-- Jitter the four coordinates of one panel segment, in source order, and
build the `Panel` (default restitution `0.95`). -/
def jitterPanel (x : ℕ) (s : ℚ × ℚ × ℚ × ℚ) : ℕ × Panel :=
  let a := jitter1 x s.1
  let b := jitter1 a.1 s.2.1
  let c := jitter1 b.1 s.2.2.1
  let d := jitter1 c.1 s.2.2.2
  (d.1, ⟨a.2, b.2, c.2, d.2, 19/20⟩)

/-- The panel loop of `Board.generate`, threading the RNG state. -/
def genPanels (x : ℕ) : List (ℚ × ℚ × ℚ × ℚ) → ℕ × List Panel
  | [] => (x, [])
  | s :: rest =>
    let a := jitterPanel x s
    let b := genPanels a.1 rest
    (b.1, a.2 :: b.2)

/-- The warp-pair loop of `Board.generate`: consecutive ids starting from the
given `wid`, partner links symmetric (flattened to partner centres). -/
def genWarps (wid : ℕ) : List (ℚ × ℚ × ℚ × ℚ × ℚ) → List Warp
  | [] => []
  | w :: rest =>
    let x1 := w.1
    let y1 := w.2.1
    let r := w.2.2.1
    let x2 := w.2.2.2.1
    let y2 := w.2.2.2.2
    ⟨x1, y1, r, wid, some (x2, y2)⟩ :: ⟨x2, y2, r, wid + 1, some (x1, y1)⟩ ::
      genWarps (wid + 2) rest

/-- The gate loop of `Board.generate`: consecutive ids from the given `gid`. -/
def genGates (gid : ℕ) : List (ℚ × ℚ × ℚ × ℚ) → List Gate
  | [] => []
  | g :: rest => ⟨g.1, g.2.1, g.2.2.1, g.2.2.2, gid⟩ :: genGates (gid + 1) rest

/-- The portal loop of `Board.generate`: portal `i` of `count` sits at
`x = gap + i*(w+gap)`, its kind drawn as `kinds[⌊r*3⌋]` (`none` when the draw
indexes out of bounds).  Threads the RNG state; `k` counts the portals still
to lay out. -/
def genPortalsAux (gap w h baseY : ℚ) : ℕ → ℕ → ℕ → ℕ × List Portal
  | x, _, 0 => (x, [])
  | x, i, k + 1 =>
    let a := nextRand x
    let kind := kinds.get? (Int.toNat ⌊a.2 * 3⌋)
    let px := gap + (i : ℚ) * (w + gap)
    let b := genPortalsAux gap w h baseY a.1 (i + 1) k
    (b.1, ⟨px, baseY, w, h, kind⟩ :: b.2)

/-- `Board.generate` (source lines 304–343), seeded as in the `Board`
constructor (`rand(seed)` with `seed >>> 0`).  Returns `none` when the preset
index draw falls outside the preset list (the source would read `undefined`
and fail). -/
def generate (cfg : Config) (seed : ℕ) : Option Board :=
  let x0 := seed % 4294967296
  let a := nextRand x0
  let presets := cfg.board.presets
  let pidx := Int.toNat ⌊a.2 * (presets.length : ℚ)⌋
  match presets.get? pidx with
  | none => none
  | some preset =>
    let b := genPanels a.1 preset.panels
    let zones := preset.zones.map (fun z => Zone.mk z.1 z.2.1 z.2.2.1 z.2.2.2.1 z.2.2.2.2)
    let warps := genWarps 1 preset.warps
    let gates := genGates 1 preset.gates
    let baseY := VIRTUAL_H - 110
    let count := if preset.portals = 0 then 3 else preset.portals
    let w : ℚ := 160
    let h : ℚ := 70
    let gap := (VIRTUAL_W - (count : ℚ) * w) / ((count : ℚ) + 1)
    let c := genPortalsAux gap w h baseY b.1 0 count
    some ⟨pidx, b.2, zones, warps, gates, c.2⟩

/-- One entry of `recentShots`. -/
structure Shot where
  portalKind : Option PortalKind
  missed : Bool
deriving DecidableEq, Repr

/-- The session state (`gameState` in the source), restricted to the fields
the scoring state machine reads and writes; presentation-only fields (flash
timers, settings, the board reference) are omitted. -/
structure GameState where
  score : ℚ
  shotsLeft : ℤ
  energy : ℚ
  combo : ℤ
  isFlow : Bool
  flowTimeLeft : ℚ
  recentShots : List Shot
  currentOrb : Option OrbState
  orbIndex : ℕ
  highScore : ℚ
deriving Repr

/-- `portalScore(kind)`: look the kind up in the score table, falling back to
the blue score when the entry is falsy (`map[kind] || map.blue`) or the kind
is `undefined`. -/
def portalScore (cfg : Config) (kind : Option PortalKind) : ℚ :=
  match kind with
  | some k => if cfg.scores.portals k = 0 then cfg.scores.portals PortalKind.blue
              else cfg.scores.portals k
  | none => cfg.scores.portals PortalKind.blue

/-- `recentShots.slice(-3)`: the last up-to-three entries. -/
def lastThree (l : List Shot) : List Shot := l.drop (l.length - 3)

/-- `calcBonusProb()`: base probability plus history / combo boosts, capped. -/
def calcBonusProb (cfg : Config) (st : GameState) : ℚ :=
  let p0 := cfg.bonus.baseProb
  let l3 := lastThree st.recentShots
  let p1 := if l3.any (fun s => decide (s.portalKind = some PortalKind.gold)) then p0 + 5/100 else p0
  let zeroCount := (l3.filter (fun s => s.missed)).length
  let p2 := if 2 ≤ zeroCount then p1 + 6/100 else p1
  let p3 := if 2 ≤ st.combo then p2 + 3/100 else p2
  min p3 cfg.bonus.cap

/-- `enterFlow()`. -/
def enterFlow (cfg : Config) (st : GameState) : GameState :=
  { st with isFlow := true, flowTimeLeft := cfg.flow.baseDuration }

/-- `doEnergyCheck()`; `r` models the `Math.random()` draw.  The
`playBonusAnimation` call only touches presentation state and is omitted. -/
def doEnergyCheck (cfg : Config) (st : GameState) (r : ℚ) : GameState :=
  if 100 ≤ st.energy then
    let st1 := { st with energy := 0 }
    if r < calcBonusProb cfg st1 then enterFlow cfg st1 else st1
  else st

/-- `doFlowExtendDraw()`; `r` models the `Math.random()` draw.  On success it
restores `flowTimeLeft` (capped); it touches no other field. -/
def doFlowExtendDraw (cfg : Config) (st : GameState) (r : ℚ) : GameState :=
  if r < cfg.flow.extendProb then
    { st with flowTimeLeft := min (st.flowTimeLeft + cfg.flow.extendSeconds) cfg.flow.extendCap }
  else st

/-- The flow bookkeeping at the top of each `tick` (source lines 575–581):
while flow is active, decrement the timer; on expiry deactivate flow and run
the extend draw. -/
def tickFlow (cfg : Config) (st : GameState) (r dt : ℚ) : GameState :=
  if st.isFlow then
    let st1 := { st with flowTimeLeft := st.flowTimeLeft - dt }
    if st1.flowTimeLeft ≤ 0 then
      doFlowExtendDraw cfg { st1 with isFlow := false } r
    else st1
  else st

/-- Push a shot record and evict the oldest entry beyond ten
(`push` + conditional `shift`). -/
def pushShot (l : List Shot) (s : Shot) : List Shot :=
  let l1 := l ++ [s]
  if 10 < l1.length then l1.drop 1 else l1

/-- `Board.prototype.onGatePassed` (source lines 463–466): fixed score and
clamped energy increments only. -/
def onGatePassed (cfg : Config) (st : GameState) : GameState :=
  { st with
      score := st.score + cfg.scores.gate,
      energy := clamp (st.energy + cfg.scores.energy.gate) 0 100 }

/-- `Board.prototype.onPortalEntered` (source lines 429–452), with `r` the
`Math.random()` draw consumed by the trailing `doEnergyCheck`.  Field updates
follow the source order; the combo condition reads `currentOrb` before it is
cleared. -/
def onPortalEntered (cfg : Config) (st : GameState) (p : Portal) (r : ℚ) : GameState :=
  let base := portalScore cfg p.kind
  let mult : ℚ := if st.isFlow then cfg.flow.scoreMultiplier else 1
  let added : ℚ := (jsRound (base * mult) : ℚ)
  let score1 := st.score + added
  let combo1 : ℤ :=
    match st.currentOrb with
    | some o => if o.gatePassed.isEmpty then 1 else st.combo + 1
    | none => 1
  let energyAdd := if p.kind = some PortalKind.gold then cfg.scores.energy.gold
                   else cfg.scores.energy.default
  let energy1 := clamp (st.energy + energyAdd * (if st.isFlow then cfg.flow.energyMultiplier else 1)) 0 100
  let shots1 := pushShot st.recentShots ⟨p.kind, false⟩
  let high1 := if st.highScore < score1 then score1 else st.highScore
  doEnergyCheck cfg
    { st with
        score := score1, combo := combo1, energy := energy1,
        recentShots := shots1, currentOrb := none,
        shotsLeft := st.shotsLeft - 1, highScore := high1 } r

/-- `Board.prototype.onMiss` (source lines 453–462), with `r` the
`Math.random()` draw consumed by the trailing `doEnergyCheck`. -/
def onMiss (cfg : Config) (st : GameState) (r : ℚ) : GameState :=
  doEnergyCheck cfg
    { st with
        energy := clamp (st.energy + cfg.scores.energy.onMiss) 0 100,
        recentShots := pushShot st.recentShots ⟨none, true⟩,
        currentOrb := none, combo := 0,
        shotsLeft := st.shotsLeft - 1 } r

/-- The fixed launch point `{x: VIRTUAL_W/2, y: 1220}`. -/
def launchBase : ℚ × ℚ := (VIRTUAL_W / 2, 1220)

/-- `spawnOrb(angleRad, power)`: `cosA` and `sinA` stand for
`Math.cos(angleRad)` and `Math.sin(angleRad)`.  Always creates the orb at the
launch point with a fresh orb index. -/
def spawnOrb (cfg : Config) (st : GameState) (cosA sinA power : ℚ) : GameState :=
  { st with
      orbIndex := st.orbIndex + 1,
      currentOrb := some ⟨launchBase.1, launchBase.2, cosA * power, sinA * power,
        cfg.orbRadius, [], 0, true⟩ }

/-- The swipe-length-to-power mapping of `doFireFromInput`:
`power = fire.min + clamp((len-10)/200, 0, 1) * (fire.max - fire.min)` with
`len` standing for `Math.hypot(dx,dy)`. -/
def firePower (cfg : Config) (len : ℚ) : ℚ :=
  cfg.fire.min + clamp ((len - 10) / 200) 0 1 * (cfg.fire.max - cfg.fire.min)

/-- The angle mapping of `doFireFromInput`: the launch direction in degrees
(`deg` standing for `(Math.atan2(dy,dx) + π) * 180/π`) is clamped into
`[-80, -20]`, never rejected. -/
def launchAngleDeg (deg : ℚ) : ℚ := clamp deg (-80) (-20)

/-- `doFireFromInput(dx, dy)` (source lines 525–539).  `len` stands for
`Math.hypot(dx,dy)` and `deg` for the launch direction in degrees; `cosA` and
`sinA` stand for the cosine and sine of `launchAngleDeg deg * π/180`, the
clamped angle in radians.  The only rejection is a shot already in flight or
exhausted shots. -/
def doFireFromInput (cfg : Config) (st : GameState) (len deg cosA sinA : ℚ) : GameState :=
  if st.currentOrb.isSome ∨ st.shotsLeft ≤ 0 then st
  else spawnOrb cfg st cosA sinA (firePower cfg len)

/-- A minimal preset: no panels, zones, warps or gates, one portal. -/
def presetW : PresetDef := ⟨[], [], [], [], 1⟩

/-- A concrete configuration used to evaluate the definitions on closed
inputs. -/
def cfgW : Config where
  orbRadius := 12
  physics := ⟨900, 50, 1400, 101/100, 49/50⟩
  warp := ⟨3⟩
  fire := ⟨2, 10⟩
  shotsPerGame := 5
  scores :=
    { portals := fun k => match k with
        | PortalKind.blue => 10
        | PortalKind.purple => 30
        | PortalKind.gold => 100
      gate := 50
      energy := ⟨40, 15, 2, 10⟩ }
  bonus := ⟨1/10, 3/10⟩
  flow := ⟨30, 2, 3/2, 1/2, 5, 8⟩
  board := ⟨[presetW]⟩

/-- A concrete idle session state. -/
def stIdle : GameState where
  score := 0
  shotsLeft := 5
  energy := 0
  combo := 0
  isFlow := false
  flowTimeLeft := 0
  recentShots := []
  currentOrb := none
  orbIndex := 0
  highScore := 0

/-- An orb that triggered gate 1, used as a concrete in-flight orb. -/
def oW : OrbState := ⟨360, 1220, 1, 1, 12, [1], 0, true⟩

/-- A session state with `oW` in flight and combo 3. -/
def stOrb : GameState := { stIdle with currentOrb := some oW, combo := 3 }

/-- The single portal of the board `generate cfgW` lays out. -/
def pW : Portal := ⟨280, 1170, 160, 70, some PortalKind.blue⟩

/-- The board generated from `cfgW` with seed 0. -/
def bW : Board := ⟨0, [], [], [], [], [pW]⟩

/-- A portal rectangle lying below the out-of-bounds line `y = 1380`;
`Board.generate` never produces one, but the `Portal` data type admits it. -/
def portalLow : Portal := ⟨0, 1400, 720, 100, some PortalKind.blue⟩

/-- An orb inside `portalLow` and simultaneously past the miss line. -/
def orbLow : OrbState := ⟨100, 1450, 0, 0, 12, [], 0, true⟩

/-- An orb above the portal row, used to instantiate the exclusivity
theorem. -/
def orbHigh : OrbState := ⟨300, 1200, 0, 0, 12, [], 0, true⟩

/-- A single warp at the origin with radius 5 and a partner at `(100,100)`. -/
def warpsW : List Warp := [⟨0, 0, 5, 1, some (100, 100)⟩]

/-- One tick of `3` seconds with the orb sitting at the origin (inside the
warp of `warpsW`). -/
def inputsW : List (ℚ × ℚ × ℚ) := [(3, 0, 0)]

/-- A configuration whose first preset has one panel segment and two
portals, used to instantiate the seed-0 degeneracy theorem. -/
def presetW2 : PresetDef := ⟨[(100, 200, 300, 400)], [], [], [], 2⟩

/-- A configuration around `presetW2`. -/
def cfgW2 : Config := { cfgW with board := ⟨[presetW2]⟩ }

/-- Lower clamp bound. -/
theorem clamp_ge_left (v a b : ℚ) : a ≤ clamp v a b := le_max_left _ _

/-- Upper clamp bound. -/
theorem clamp_le_right (v a b : ℚ) (hab : a ≤ b) : clamp v a b ≤ b :=
  max_le hab (min_le_left _ _)

/-- The source's `if (a < b) then b else a` high-score update is `max`. -/
theorem if_lt_eq_max (a b : ℚ) : (if a < b then b else a) = max a b := by
  rcases le_or_lt b a with h | h
  · rw [if_neg (not_lt.mpr h), max_eq_left h]
  · rw [if_pos h, max_eq_right h.le]

/-- `doEnergyCheck` resets energy to zero exactly when it is at least 100,
and otherwise leaves it unchanged. -/
theorem doEnergyCheck_energy (cfg : Config) (st : GameState) (r : ℚ) :
    (doEnergyCheck cfg st r).energy = if 100 ≤ st.energy then 0 else st.energy := by
  unfold doEnergyCheck enterFlow
  dsimp only
  split_ifs <;> rfl

/-- `doEnergyCheck` does not touch the combo counter. -/
theorem doEnergyCheck_combo (cfg : Config) (st : GameState) (r : ℚ) :
    (doEnergyCheck cfg st r).combo = st.combo := by
  unfold doEnergyCheck enterFlow
  dsimp only
  split_ifs <;> rfl

/-- `doEnergyCheck` does not touch the score. -/
theorem doEnergyCheck_score (cfg : Config) (st : GameState) (r : ℚ) :
    (doEnergyCheck cfg st r).score = st.score := by
  unfold doEnergyCheck enterFlow
  dsimp only
  split_ifs <;> rfl

/-- `doEnergyCheck` does not touch the high score. -/
theorem doEnergyCheck_highScore (cfg : Config) (st : GameState) (r : ℚ) :
    (doEnergyCheck cfg st r).highScore = st.highScore := by
  unfold doEnergyCheck enterFlow
  dsimp only
  split_ifs <;> rfl

/-- Bounds for energy after one threshold check of a clamped value. -/
theorem energy_after_check_bounds (Y : ℚ) :
    0 ≤ (if 100 ≤ clamp Y 0 100 then (0:ℚ) else clamp Y 0 100) ∧
    (if 100 ≤ clamp Y 0 100 then (0:ℚ) else clamp Y 0 100) < 100 := by
  split_ifs with h
  · exact ⟨le_refl 0, by norm_num⟩
  · exact ⟨clamp_ge_left _ _ _, lt_of_not_le h⟩

/-- C1: the claim states that when flow expires at a tick and the extend draw
succeeds (`r` below `extendProb`), the remaining flow time is restored
(capped) and flow re-activates.  The code restores the time but never sets
`isFlow` back to `true`: with `extendProb = 1/2`, flow active with `1/100`
seconds left, a tick of `1/50` seconds and a draw of `0 < 1/2`, the timer is
restored to `min(1/100 - 1/50 + 5, 8) = 499/100` yet `isFlow` stays `false`,
so flow never resurrects and the restored time is dead state. -/
theorem tickFlow_no_reactivation :
    (tickFlow cfgW { stIdle with isFlow := true, flowTimeLeft := 1/100 } 0 (1/50)).isFlow = false ∧
    (tickFlow cfgW { stIdle with isFlow := true, flowTimeLeft := 1/100 } 0 (1/50)).flowTimeLeft
      = 499/100 := by
  constructor <;>
    norm_num [tickFlow, doFlowExtendDraw, cfgW, stIdle, min_def]

/-- C2 counterexample: a gate-passed event can raise energy to exactly 100
and no reset (nor bonus draw) happens there — `onGatePassed` never runs the
energy-threshold check, so energy stays at 100 instead of being reset to 0.
With gate energy `10` and energy `95`, the handler leaves energy at `100`. -/
theorem onGatePassed_energy_not_reset :
    (onGatePassed cfgW { stIdle with energy := 95 }).energy = 100 ∧ (100 : ℚ) ≠ 0 := by
  constructor
  · unfold onGatePassed
    dsimp only
    norm_num [clamp, cfgW, stIdle, min_def, max_def]
  · norm_num

/-- C2 (amended): energy always stays within `[0,100]` after every handler;
the threshold check (reset to 0, single bonus draw) runs only in the
portal-entered and miss handlers — after those, energy is strictly below
100 — while the gate-passed handler merely clamps at 100 without a check. -/
theorem energy_within_bounds (cfg : Config) (st : GameState) (p : Portal) (r : ℚ) :
    (0 ≤ (onGatePassed cfg st).energy ∧ (onGatePassed cfg st).energy ≤ 100) ∧
    (0 ≤ (onPortalEntered cfg st p r).energy ∧ (onPortalEntered cfg st p r).energy < 100) ∧
    (0 ≤ (onMiss cfg st r).energy ∧ (onMiss cfg st r).energy < 100) := by
  refine ⟨?_, ?_, ?_⟩
  · unfold onGatePassed
    dsimp only
    exact ⟨clamp_ge_left _ _ _, clamp_le_right _ _ _ (by norm_num)⟩
  · unfold onPortalEntered
    dsimp only
    rw [doEnergyCheck_energy]
    dsimp only
    exact energy_after_check_bounds _
  · unfold onMiss
    rw [doEnergyCheck_energy]
    dsimp only
    exact energy_after_check_bounds _

/-- C3 counterexample: the gate-passed handler raises the score above the
persisted high score (score `50` against high score `0`) but does not update
the high score, and neither does the subsequent miss handler that ends the
shot — the high score is only written in the portal-entered handler. -/
theorem highScore_not_updated_on_gate_then_miss :
    (onGatePassed cfgW stIdle).score = 50 ∧
    (onGatePassed cfgW stIdle).highScore = 0 ∧
    (onMiss cfgW (onGatePassed cfgW stIdle) 1).highScore = 0 ∧
    (onMiss cfgW (onGatePassed cfgW stIdle) 1).score = 50 := by
  have h1 : (onGatePassed cfgW stIdle).score = 50 := by
    unfold onGatePassed
    dsimp only
    norm_num [cfgW, stIdle]
  have h2 : (onGatePassed cfgW stIdle).highScore = 0 := rfl
  have h3 : (onMiss cfgW (onGatePassed cfgW stIdle) 1).highScore = 0 := by
    unfold onMiss
    rw [doEnergyCheck_highScore]
    exact h2
  have h4 : (onMiss cfgW (onGatePassed cfgW stIdle) 1).score = 50 := by
    unfold onMiss
    rw [doEnergyCheck_score]
    exact h1
  exact ⟨h1, h2, h3, h4⟩

/-- C3 (amended): the high score is updated (to the maximum of the old high
score and the new score) exactly in the portal-entered handler; the miss and
gate-passed handlers leave it unchanged, so score gained from gates on a shot
that ends in a miss is not persisted until some later portal entry. -/
theorem highScore_update_only_on_portal (cfg : Config) (st : GameState) (p : Portal) (r : ℚ) :
    (onPortalEntered cfg st p r).highScore =
      max st.highScore (st.score + (jsRound (portalScore cfg p.kind *
        (if st.isFlow then cfg.flow.scoreMultiplier else 1)) : ℚ)) ∧
    (onMiss cfg st r).highScore = st.highScore ∧
    (onGatePassed cfg st).highScore = st.highScore := by
  refine ⟨?_, ?_, rfl⟩
  · unfold onPortalEntered
    dsimp only
    rw [doEnergyCheck_highScore]
    dsimp only
    exact if_lt_eq_max _ _
  · unfold onMiss
    rw [doEnergyCheck_highScore]

/-- C8: on a portal-entered event the combo counter is computed from the
current orb before it is cleared: it increments when the just-finished orb's
triggered-gate set is non-empty at the moment of portal entry, and is set to
1 otherwise. -/
theorem combo_reads_orb_before_clear (cfg : Config) (st : GameState) (p : Portal) (r : ℚ)
    (o : OrbState) (h : st.currentOrb = some o) :
    (onPortalEntered cfg st p r).combo =
      if o.gatePassed.isEmpty then 1 else st.combo + 1 := by
  unfold onPortalEntered
  dsimp only
  rw [doEnergyCheck_combo]
  dsimp only
  rw [h]

/-- C8 witness: instantiating the combo rule on a concrete state whose orb
has a non-empty gate set. -/
theorem combo_reads_orb_before_clear_witness :
    (onPortalEntered cfgW stOrb pW 1).combo =
      if oW.gatePassed.isEmpty then 1 else stOrb.combo + 1 :=
  combo_reads_orb_before_clear cfgW stOrb pW 1 oW rfl

/-- C4 counterexample: a launch whose direction (`deg = 180`, far outside
`[-80, -20]`) is not rejected: with no orb in flight and shots remaining, the
fire routine clamps the angle and creates the orb anyway (and `shotsLeft` is
untouched by firing, so that part holds vacuously). -/
theorem fire_out_of_range_angle_creates_orb :
    (doFireFromInput cfgW stIdle 100 180 (94/100) (-34/100)).currentOrb.isSome = true ∧
    (doFireFromInput cfgW stIdle 100 180 (94/100) (-34/100)).shotsLeft = 5 ∧
    ¬ ((-80 : ℚ) ≤ 180 ∧ (180 : ℚ) ≤ -20) := by
  refine ⟨?_, ?_, ?_⟩
  · norm_num [doFireFromInput, spawnOrb, stIdle]
  · norm_num [doFireFromInput, spawnOrb, stIdle]
  · norm_num

/-- C4 (amended): the only launch rejections are a shot already in flight or
exhausted shots (the input layer additionally drops drags shorter than 10
units before the fire routine is reached).  Otherwise the launch always
succeeds: an orb is created, shots are unchanged by firing, the launch angle
is clamped into `[-80°, -20°]` rather than rejected, and the power is mapped
into `[fire.min, fire.max]` (never 0 unless `fire.min` is 0). -/
theorem fire_accept_behavior (cfg : Config) (st : GameState) (len deg cosA sinA : ℚ)
    (hOrb : st.currentOrb = none) (hShots : 0 < st.shotsLeft) :
    (doFireFromInput cfg st len deg cosA sinA).currentOrb.isSome = true ∧
    (doFireFromInput cfg st len deg cosA sinA).shotsLeft = st.shotsLeft ∧
    -80 ≤ launchAngleDeg deg ∧ launchAngleDeg deg ≤ -20 ∧
    (cfg.fire.min ≤ cfg.fire.max →
      cfg.fire.min ≤ firePower cfg len ∧ firePower cfg len ≤ cfg.fire.max) := by
  have hguard : ¬ (st.currentOrb.isSome = true ∨ st.shotsLeft ≤ 0) := by
    rw [hOrb]
    rintro (h | h)
    · simp at h
    · omega
  refine ⟨?_, ?_, clamp_ge_left _ _ _, clamp_le_right _ _ _ (by norm_num), ?_⟩
  · unfold doFireFromInput
    rw [if_neg hguard]
    rfl
  · unfold doFireFromInput
    rw [if_neg hguard]
    rfl
  · intro hmm
    have ht0 : 0 ≤ clamp ((len - 10) / 200) 0 1 := clamp_ge_left _ _ _
    have ht1 : clamp ((len - 10) / 200) 0 1 ≤ 1 := clamp_le_right _ _ _ (by norm_num)
    have hd : 0 ≤ cfg.fire.max - cfg.fire.min := by linarith
    constructor
    · unfold firePower
      nlinarith
    · unfold firePower
      nlinarith

/-- C4 witness: a concrete accepted launch from the idle state. -/
theorem fire_accept_behavior_witness :
    (doFireFromInput cfgW stIdle 100 (-50) 1 (-1)).currentOrb.isSome = true ∧
    (doFireFromInput cfgW stIdle 100 (-50) 1 (-1)).shotsLeft = stIdle.shotsLeft ∧
    -80 ≤ launchAngleDeg (-50) ∧ launchAngleDeg (-50) ≤ -20 ∧
    (cfgW.fire.min ≤ cfgW.fire.max →
      cfgW.fire.min ≤ firePower cfgW 100 ∧ firePower cfgW 100 ≤ cfgW.fire.max) :=
  fire_accept_behavior cfgW stIdle 100 (-50) 1 (-1) rfl (by decide)

/-- The portal loop does not move the orb: only the `alive` flag changes. -/
theorem portalsLoop_pos (ps : List Portal) (o : OrbState) (evs : List BoardEv) :
    (portalsLoop o ps evs).1.posx = o.posx ∧ (portalsLoop o ps evs).1.posy = o.posy ∧
    (portalsLoop o ps evs).1.radius = o.radius := by
  induction ps generalizing o evs with
  | nil => exact ⟨rfl, rfl, rfl⟩
  | cons p ps ih =>
    simp only [portalsLoop]
    split_ifs with h
    · exact ih _ _
    · exact ih _ _

/-- A portal-entered event in the loop's output comes either from the initial
event list or from a portal of the list that contains the orb's position. -/
theorem portalsLoop_mem_portalEntered (ps : List Portal) (o : OrbState) (evs : List BoardEv)
    (p : Portal) (h : BoardEv.portalEntered p ∈ (portalsLoop o ps evs).2) :
    BoardEv.portalEntered p ∈ evs ∨ (p ∈ ps ∧ p.containsAt o.posx o.posy = true) := by
  induction ps generalizing o evs with
  | nil => exact Or.inl h
  | cons q ps ih =>
    simp only [portalsLoop] at h
    split_ifs at h with hc
    · rcases ih _ _ h with hin | ⟨hmem, hct⟩
      · rcases List.mem_append.mp hin with h1 | h1
        · exact Or.inl h1
        · have hpq : p = q := by simpa using h1
          subst hpq
          exact Or.inr ⟨List.mem_cons_self _ _, hc⟩
      · exact Or.inr ⟨List.mem_cons_of_mem _ hmem, hct⟩
    · rcases ih _ _ h with h1 | ⟨hmem, hct⟩
      · exact Or.inl h1
      · exact Or.inr ⟨List.mem_cons_of_mem _ hmem, hct⟩

/-- The portal loop never emits a miss event. -/
theorem portalsLoop_missEv (ps : List Portal) (o : OrbState) (evs : List BoardEv)
    (h : BoardEv.missEv ∈ (portalsLoop o ps evs).2) : BoardEv.missEv ∈ evs := by
  induction ps generalizing o evs with
  | nil => exact h
  | cons q ps ih =>
    simp only [portalsLoop] at h
    split_ifs at h
    · have h2 := ih _ _ h
      rcases List.mem_append.mp h2 with h1 | h1
      · exact h1
      · simp at h1
    · exact ih _ _ h

/-- C5 counterexample: the out-of-bounds check (source line 162) tests only
the position, not the `alive` flag, so there is no short-circuit: with a
portal rectangle reaching below the miss line (`portalLow`, spanning
`y ∈ [1400, 1500]`) and an orb at `y = 1450` (radius 12, so
`1450 - 12 > 1380`), one single tick emits both a portal-entered event and a
miss event. -/
theorem portal_and_miss_same_tick :
    BoardEv.portalEntered portalLow ∈ (portalMissPhase [portalLow] orbLow).2 ∧
    BoardEv.missEv ∈ (portalMissPhase [portalLow] orbLow).2 := by
  constructor <;>
    norm_num [portalMissPhase, portalsLoop, missPhase, Portal.containsAt,
      portalLow, orbLow, VIRTUAL_H]

/-- C5 (amended): a tick never produces both a portal-entered and a miss
event provided every portal rectangle lies above the miss line
(`p.y + p.h ≤ VIRTUAL_H + 100`) — which holds for every generated board,
whose portals span `y ∈ [1170, 1240]` against a miss line at `1380 + radius`.
The exclusion is geometric: the code has no `alive`-flag short-circuit in the
bounds check. -/
theorem portal_miss_exclusive (portals : List Portal) (o : OrbState)
    (hrad : 0 ≤ o.radius)
    (hport : ∀ p ∈ portals, p.y + p.h ≤ VIRTUAL_H + 100) :
    ¬ (BoardEv.missEv ∈ (portalMissPhase portals o).2 ∧
       ∃ p, BoardEv.portalEntered p ∈ (portalMissPhase portals o).2) := by
  rintro ⟨hm, p, hp⟩
  have hpos := portalsLoop_pos portals o []
  unfold portalMissPhase missPhase at hm hp
  dsimp only at hm hp
  split_ifs at hm hp with hcond
  · dsimp only at hm hp
    rcases List.mem_append.mp hp with hp1 | hp1
    · rcases portalsLoop_mem_portalEntered portals o [] p hp1 with h0 | ⟨hmem, hct⟩
      · simp at h0
      · have hy : o.posy ≤ p.y + p.h := by
          simp only [Portal.containsAt, Bool.and_eq_true, decide_eq_true_eq] at hct
          exact hct.2
        have hb := hport p hmem
        rw [hpos.2.1, hpos.2.2] at hcond
        linarith
    · simp at hp1
  · exact absurd (portalsLoop_missEv portals o [] hm) (by simp)

/-- C5 witness: on the generated portal row (bottom at `y = 1240`) the two
events are exclusive. -/
theorem portal_miss_exclusive_witness :
    ¬ (BoardEv.missEv ∈ (portalMissPhase [pW] orbHigh).2 ∧
       ∃ p, BoardEv.portalEntered p ∈ (portalMissPhase [pW] orbHigh).2) :=
  portal_miss_exclusive [pW] orbHigh (by norm_num [orbHigh])
    (by norm_num [pW, VIRTUAL_H])

/-- C6 counterexample: with `v_min = 50`, `v_max = 1400` (so
`0 < v_min ≤ v_max`) and a zero velocity after gravity (`speed = 0`,
consistently with `0^2 = 0^2 + 0^2`), the clamp step leaves the velocity at
`(0,0)`: the post-clamp speed is `0`, below `v_min` by the full `v_min` — far
beyond any floating tolerance (here even a tolerance of `1` fails, as
`0 < 50 - 1`).  The epsilon-guarded rescale `v_min/(speed + 1e-6)` cannot
raise a zero vector. -/
theorem clampSpeed_zero_velocity :
    clampSpeed 50 1400 0 (0, 0) = (0, 0) ∧
    ((0:ℚ) < 50 ∧ (50:ℚ) ≤ 1400 ∧ (0:ℚ) ≤ 0 ∧ (0:ℚ)^2 = 0^2 + 0^2) ∧
    (0:ℚ) < 50 - 1 := by
  refine ⟨?_, by norm_num, by norm_num⟩
  norm_num [clampSpeed]

/-- C6 (amended): assuming `0 < v_min ≤ v_max` and a positive pre-clamp
speed, the post-clamp squared speed lies within
`[(v_min * speed/(speed + 1e-6))^2, v_max^2]`: the upper bound is exact,
while the lower bound sits strictly below `v_min` by the relative factor
`speed/(speed + 1e-6)` introduced by the epsilon divisor (the floating
tolerance of the spec); a zero pre-clamp speed stays at zero, outside
`[v_min, v_max]` altogether. -/
theorem clampSpeed_bounds (v_min v_max speed : ℚ) (v : ℚ × ℚ)
    (h1 : 0 < v_min) (h2 : v_min ≤ v_max) (h3 : 0 < speed)
    (h4 : speed^2 = v.1^2 + v.2^2) :
    (v_min * (speed / (speed + 1/1000000)))^2 ≤
        (clampSpeed v_min v_max speed v).1^2 + (clampSpeed v_min v_max speed v).2^2 ∧
    (clampSpeed v_min v_max speed v).1^2 + (clampSpeed v_min v_max speed v).2^2
      ≤ v_max^2 := by
  have hs0 : speed ≠ 0 := ne_of_gt h3
  have heps : (0:ℚ) < speed + 1/1000000 := by linarith
  have hfrac0 : 0 ≤ speed / (speed + 1/1000000) := by positivity
  have hfrac1 : speed / (speed + 1/1000000) ≤ 1 := by
    rw [div_le_one heps]
    linarith
  have hlow0 : 0 ≤ v_min * (speed / (speed + 1/1000000)) := by positivity
  have hlowmin : v_min * (speed / (speed + 1/1000000)) ≤ v_min := by nlinarith
  unfold clampSpeed
  dsimp only
  split_ifs with hlt hmax hmax
  · exact absurd (lt_trans hmax hlt) (not_lt.mpr h2)
  · have key : (v.1 * (v_min / (speed + 1/1000000)))^2 +
        (v.2 * (v_min / (speed + 1/1000000)))^2 =
        (v_min * (speed / (speed + 1/1000000)))^2 := by
      have e1 : (v.1 * (v_min / (speed + 1/1000000)))^2 +
          (v.2 * (v_min / (speed + 1/1000000)))^2 =
          (v.1^2 + v.2^2) * (v_min / (speed + 1/1000000))^2 := by ring
      rw [e1, ← h4]
      ring
    constructor
    · exact le_of_eq key.symm
    · rw [key]
      exact pow_le_pow_left₀ hlow0 (hlowmin.trans h2) 2
  · have key2 : (v.1 * (v_max / speed))^2 + (v.2 * (v_max / speed))^2 = v_max^2 := by
      have e2 : (v.1 * (v_max / speed))^2 + (v.2 * (v_max / speed))^2 =
          (v.1^2 + v.2^2) * (v_max / speed)^2 := by ring
      rw [e2, ← h4, div_pow, mul_comm]
      exact div_mul_cancel₀ _ (pow_ne_zero 2 hs0)
    constructor
    · rw [key2]
      exact pow_le_pow_left₀ hlow0 (hlowmin.trans h2) 2
    · exact le_of_eq key2
  · constructor
    · rw [← h4]
      exact pow_le_pow_left₀ hlow0 (hlowmin.trans (not_lt.mp hlt)) 2
    · rw [← h4]
      exact pow_le_pow_left₀ (le_of_lt h3) (not_lt.mp hmax) 2

/-- C6 witness: velocity `(3,4)` with speed `5` (so `5^2 = 3^2 + 4^2`) under
`v_min = 50`, `v_max = 1400`. -/
theorem clampSpeed_bounds_witness :
    ((50:ℚ) * ((5:ℚ) / (5 + 1/1000000)))^2 ≤
        (clampSpeed 50 1400 5 ((3:ℚ), (4:ℚ))).1^2 + (clampSpeed 50 1400 5 ((3:ℚ), (4:ℚ))).2^2 ∧
    (clampSpeed 50 1400 5 ((3:ℚ), (4:ℚ))).1^2 + (clampSpeed 50 1400 5 ((3:ℚ), (4:ℚ))).2^2
      ≤ (1400:ℚ)^2 :=
  clampSpeed_bounds 50 1400 5 (3, 4) (by norm_num) (by norm_num) (by norm_num) (by norm_num)

/-- A teleport can only fire when the (decremented) cooldown is
non-positive. -/
theorem warpLoop_fired_cd (C px py cd : ℚ) (ws : List Warp)
    (h : (warpLoop C px py cd ws).2.2 = true) : cd ≤ 0 := by
  induction ws with
  | nil => simp [warpLoop] at h
  | cons w ws ih =>
    cases hpart : w.partner with
    | none =>
      simp only [warpLoop, hpart] at h
      split_ifs at h
      · exact ih h
      · exact ih h
    | some c =>
      simp only [warpLoop, hpart] at h
      split_ifs at h with hc
      · exact hc.2
      · exact ih h

/-- When no teleport fires, the warp loop leaves the cooldown unchanged. -/
theorem warpLoop_not_fired_cd (C px py cd : ℚ) (ws : List Warp)
    (h : (warpLoop C px py cd ws).2.2 = false) :
    (warpLoop C px py cd ws).2.1 = cd := by
  induction ws with
  | nil => rfl
  | cons w ws ih =>
    cases hpart : w.partner with
    | none =>
      simp only [warpLoop, hpart] at h ⊢
      split_ifs at h ⊢
      · exact ih h
      · exact ih h
    | some c =>
      simp only [warpLoop, hpart] at h ⊢
      split_ifs at h ⊢ with hc
      exact ih h

/-- Cooldown bound along a run of warp phases: if no teleport fired before
tick `j` and one fires at tick `j`, the simulated time of ticks `0..j` is at
least the starting cooldown. -/
theorem warpFires_first_cd_bound (C : ℚ) (warps : List Warp) :
    ∀ (inputs : List (ℚ × ℚ × ℚ)) (cd : ℚ) (j : ℕ),
      (∀ i ∈ inputs, 0 ≤ i.1) →
      (∀ k, k < j → (warpFires C warps cd inputs).get? k ≠ some true) →
      (warpFires C warps cd inputs).get? j = some true →
      cd ≤ ((inputs.take (j + 1)).map (fun i => i.1)).sum := by
  intro inputs
  induction inputs with
  | nil =>
    intro cd j _ _ hfire
    simp [warpFires] at hfire
  | cons i rest ih =>
    intro cd j hdt hbefore hfire
    have hd0 : 0 ≤ i.1 := hdt i (List.mem_cons_self _ _)
    cases j with
    | zero =>
      have hfired : (warpPhase C warps i.1 i.2.1 i.2.2 cd).2.2 = true := by
        simpa [warpFires] using hfire
      have hcd1 : (if 0 < cd then cd - i.1 else cd) ≤ 0 := by
        apply warpLoop_fired_cd C i.2.1 i.2.2 _ warps
        simpa [warpPhase] using hfired
      simp only [List.take, List.map, List.sum_cons, List.sum_nil]
      split_ifs at hcd1 with hpos
      · linarith
      · linarith
    | succ k =>
      have hhead : (warpPhase C warps i.1 i.2.1 i.2.2 cd).2.2 = false := by
        have h0 := hbefore 0 (Nat.succ_pos k)
        simp only [warpFires, List.get?] at h0
        cases hb : (warpPhase C warps i.1 i.2.1 i.2.2 cd).2.2
        · rfl
        · exact absurd (by rw [hb]) h0
      have hcdeq : (warpPhase C warps i.1 i.2.1 i.2.2 cd).2.1 =
          (if 0 < cd then cd - i.1 else cd) := by
        have := warpLoop_not_fired_cd C i.2.1 i.2.2
          (if 0 < cd then cd - i.1 else cd) warps (by simpa [warpPhase] using hhead)
        simpa [warpPhase] using this
      have hbefore' : ∀ m, m < k →
          (warpFires C warps (warpPhase C warps i.1 i.2.1 i.2.2 cd).2.1 rest).get? m
            ≠ some true := by
        intro m hm
        have := hbefore (m + 1) (Nat.succ_lt_succ hm)
        simpa [warpFires, List.get?] using this
      have hfire' :
          (warpFires C warps (warpPhase C warps i.1 i.2.1 i.2.2 cd).2.1 rest).get? k
            = some true := by
        simpa [warpFires, List.get?] using hfire
      have htail := ih (warpPhase C warps i.1 i.2.1 i.2.2 cd).2.1 k
        (fun a ha => hdt a (List.mem_cons_of_mem _ ha)) hbefore' hfire'
      rw [hcdeq] at htail
      simp only [List.take, List.map, List.sum_cons]
      split_ifs at htail with hpos
      · linarith
      · linarith

/-- C7: after a teleport (cooldown reset to the configured constant `C`), no
further teleport fires for that orb until at least `C` seconds of simulated
time (the sum of the tick `dt`s, each tick's orb position arbitrary, so in
particular even if the orb stays inside a warp circle) have elapsed: the
first subsequent firing tick `j` satisfies `C ≤ dt_0 + ... + dt_j`. -/
theorem warp_cooldown_respected (C : ℚ) (warps : List Warp)
    (inputs : List (ℚ × ℚ × ℚ)) (j : ℕ)
    (hdt : ∀ i ∈ inputs, 0 ≤ i.1)
    (hbefore : ∀ k, k < j → (warpFires C warps C inputs).get? k ≠ some true)
    (hfire : (warpFires C warps C inputs).get? j = some true) :
    C ≤ ((inputs.take (j + 1)).map (fun i => i.1)).sum :=
  warpFires_first_cd_bound C warps inputs C j hdt hbefore hfire

/-- C7 witness: cooldown `2`, a single tick of `3` seconds with the orb
inside the warp of `warpsW`: the teleport fires at tick 0 and indeed
`2 ≤ 3`. -/
theorem warp_cooldown_respected_witness :
    (warpFires 2 warpsW 2 inputsW).get? 0 = some true ∧
    (2:ℚ) ≤ ((inputsW.take 1).map (fun i => i.1)).sum := by
  constructor
  · norm_num [warpFires, warpPhase, warpLoop, Warp.containsAt, warpsW, inputsW]
  · exact warp_cooldown_respected 2 warpsW inputsW 0
      (by norm_num [inputsW])
      (fun k hk => absurd hk (Nat.not_lt_zero k))
      (by norm_num [warpFires, warpPhase, warpLoop, Warp.containsAt, warpsW, inputsW])

/-- Seed 0 is a fixed point of the xorshift step. -/
theorem xs32_zero : xs32 0 = 0 := by
  simp [xs32]

/-- With state 0, `rand` returns exactly 0 and stays at state 0. -/
theorem nextRand_zero : nextRand 0 = (0, 0) := by
  simp [nextRand, xs32_zero]

/-- With the RNG stuck at 0, one jitter call offsets by exactly `-30`. -/
theorem jitter1_zero (v : ℚ) : jitter1 0 v = (0, v - 30) := by
  unfold jitter1
  rw [nextRand_zero]
  norm_num
  ring

/-- With the RNG stuck at 0, a whole panel is offset by `-30` in every
coordinate. -/
theorem jitterPanel_zero (s : ℚ × ℚ × ℚ × ℚ) :
    jitterPanel 0 s = (0, ⟨s.1 - 30, s.2.1 - 30, s.2.2.1 - 30, s.2.2.2 - 30, 19/20⟩) := by
  simp [jitterPanel, jitter1_zero]

/-- With the RNG stuck at 0, the panel loop maps every preset segment to its
`-30`-offset panel. -/
theorem genPanels_zero (l : List (ℚ × ℚ × ℚ × ℚ)) :
    genPanels 0 l = (0, l.map (fun s =>
      Panel.mk (s.1 - 30) (s.2.1 - 30) (s.2.2.1 - 30) (s.2.2.2 - 30) (19/20))) := by
  induction l with
  | nil => rfl
  | cons s rest ih => simp [genPanels, jitterPanel_zero, ih]

/-- With the RNG stuck at 0, the portal loop keeps state 0 and lays every
portal out with kind blue at the evenly spaced positions. -/
theorem genPortalsAux_zero (gap w h baseY : ℚ) :
    ∀ (k i : ℕ), genPortalsAux gap w h baseY 0 i k =
      (0, (List.range k).map (fun j =>
        Portal.mk (gap + ((i + j : ℕ) : ℚ) * (w + gap)) baseY w h
          (some PortalKind.blue))) := by
  intro k
  induction k with
  | zero => intro i; simp [genPortalsAux]
  | succ k ih =>
    intro i
    rw [List.range_succ_eq_map]
    simp only [genPortalsAux, nextRand_zero, ih (i + 1), zero_mul, Int.floor_zero,
      Int.toNat_zero, kinds, List.get?, List.map_cons, List.map_map, Nat.add_zero,
      Prod.mk.injEq, true_and]
    refine congrArg (List.cons _) ?_
    apply List.map_congr_left
    intro j _
    have hidx : i + 1 + j = i + (j + 1) := by omega
    simp [Function.comp, Nat.succ_eq_add_one, hidx]

/-- `Board.generate` with seed 0: the RNG stream is constantly 0, so preset 0
is chosen, every panel coordinate is offset by exactly `-30`, zones, warps
and gates come straight from the preset, and the portal row is produced by
the portal loop with RNG state 0. -/
theorem generate_zero (cfg : Config) (p0 : PresetDef)
    (h : cfg.board.presets.get? 0 = some p0) :
    generate cfg 0 = some ⟨0,
      p0.panels.map (fun s =>
        Panel.mk (s.1 - 30) (s.2.1 - 30) (s.2.2.1 - 30) (s.2.2.2 - 30) (19/20)),
      p0.zones.map (fun z => Zone.mk z.1 z.2.1 z.2.2.1 z.2.2.2.1 z.2.2.2.2),
      genWarps 1 p0.warps,
      genGates 1 p0.gates,
      (genPortalsAux
        ((VIRTUAL_W - ((if p0.portals = 0 then 3 else p0.portals : ℕ) : ℚ) * 160) /
          (((if p0.portals = 0 then 3 else p0.portals : ℕ) : ℚ) + 1))
        160 70 (VIRTUAL_H - 110) 0 0 (if p0.portals = 0 then 3 else p0.portals)).2⟩ := by
  unfold generate
  simp only [Nat.zero_mod, nextRand_zero, zero_mul, Int.floor_zero, Int.toNat_zero, h,
    genPanels_zero]

/-- C9: board generation is a pure function of the 32-bit seed (all
randomness is drawn from the seeded xorshift stream), so any two boards
generated from the same seed under the same configuration agree on the
chosen preset index, the jittered panels, the zones, the warp pairs with
their ids and partner links, the gates with their ids, and the portals with
their positions and kinds. -/
theorem generate_deterministic (cfg : Config) (seed : ℕ) (b1 b2 : Board)
    (h1 : generate cfg seed = some b1) (h2 : generate cfg seed = some b2) :
    b1.pidx = b2.pidx ∧ b1.panels = b2.panels ∧ b1.zones = b2.zones ∧
    b1.warps = b2.warps ∧ b1.gates = b2.gates ∧ b1.portals = b2.portals := by
  have hb : b1 = b2 := Option.some.inj (h1.symm.trans h2)
  subst hb
  exact ⟨rfl, rfl, rfl, rfl, rfl, rfl⟩

/-- C9 witness: seed 0 on `cfgW` generates exactly the board `bW`, and the
determinism theorem applies to it. -/
theorem generate_deterministic_witness :
    generate cfgW 0 = some bW ∧
    (bW.pidx = bW.pidx ∧ bW.panels = bW.panels ∧ bW.zones = bW.zones ∧
     bW.warps = bW.warps ∧ bW.gates = bW.gates ∧ bW.portals = bW.portals) := by
  have hgen : generate cfgW 0 = some bW := by
    rw [generate_zero cfgW presetW rfl, genPortalsAux_zero]
    have hr1 : List.range 1 = [0] := rfl
    norm_num [presetW, bW, pW, genWarps, genGates, VIRTUAL_W, VIRTUAL_H, hr1]
  exact ⟨hgen, generate_deterministic cfgW 0 bW bW hgen hgen⟩

/-- C10: for seed 0 the generator's pseudo-random stream is constantly 0
(`xs32 0 = 0`), so generation is fully degenerate: preset index 0 is
selected, every panel coordinate is jittered by exactly `-30`, and every
portal's kind is the first kind, blue. -/
theorem generate_seed_zero_degenerate (cfg : Config) (p0 : PresetDef)
    (h : cfg.board.presets.get? 0 = some p0) :
    ∃ b, generate cfg 0 = some b ∧ b.pidx = 0 ∧
      b.panels = p0.panels.map (fun s =>
        Panel.mk (s.1 - 30) (s.2.1 - 30) (s.2.2.1 - 30) (s.2.2.2 - 30) (19/20)) ∧
      ∀ p ∈ b.portals, p.kind = some PortalKind.blue := by
  refine ⟨_, generate_zero cfg p0 h, rfl, rfl, ?_⟩
  intro p hp
  rw [genPortalsAux_zero] at hp
  simp only [List.mem_map] at hp
  obtain ⟨j, _, rfl⟩ := hp
  rfl

/-- C10 witness: a configuration whose first preset holds one panel segment
`(100,200,300,400)` and two portals. -/
theorem generate_seed_zero_degenerate_witness :
    ∃ b, generate cfgW2 0 = some b ∧ b.pidx = 0 ∧
      b.panels = presetW2.panels.map (fun s =>
        Panel.mk (s.1 - 30) (s.2.1 - 30) (s.2.2.1 - 30) (s.2.2.2 - 30) (19/20)) ∧
      ∀ p ∈ b.portals, p.kind = some PortalKind.blue :=
  generate_seed_zero_degenerate cfgW2 presetW2 rfl

end OrbCascade
